import Mathlib

/-!
Verification development for the report-rendering core of a test-report
GitHub action (`src/action.ts`).  The definitions below are shallow
embeddings of the TypeScript functions: JavaScript strings become Lean
`String`, the `Infinity`-capable character limit becomes `Option Int`
(`none` = unbounded), JS objects used as string-keyed dictionaries
become association lists recording property creation order — with the
ECMAScript enumeration order of `Object.entries` (array-index keys
first, in ascending numeric order) modelled explicitly by
`jsObjectEntries` — and `undefined`-able values become `Option`.
External library collaborators (`strip-ansi`, the node `path` module)
are passed in as function parameters, mirroring the spec's treatment of
them as external collaborators.
-/

set_option autoImplicit false

/-! ## Generic string helpers -/

/-- Does the second character list start with the first?  Used to model
JavaScript's leftmost-match search of `String.prototype.replace`. -/
def leadsWith : List Char → List Char → Bool
  | [], _ => true
  | _ :: _, [] => false
  | a :: as, b :: bs => a == b && leadsWith as bs

/-- Replace the first (leftmost) occurrence of `pat` in the character
list by `repl`; the whole list is returned unchanged when `pat` does not
occur.  This is the semantics of JavaScript `s.replace(pat, repl)` for
string patterns. -/
def replaceFirstAux (pat repl : List Char) : List Char → List Char
  | [] => if pat.isEmpty then repl else []
  | c :: cs =>
    if leadsWith pat (c :: cs) then repl ++ (c :: cs).drop pat.length
    else c :: replaceFirstAux pat repl cs

/-- Embedding of JavaScript `s.replace(pat, repl)` (first occurrence only). -/
def replaceFirst (s pat repl : String) : String :=
  String.mk (replaceFirstAux pat.data repl.data s.data)

/-- A packed character list has that list's length. -/
theorem strLength_mk (l : List Char) : (String.mk l).length = l.length := rfl

/-- The ellipsis marker has three characters. -/
theorem length_dots : ("..." : String).length = 3 := rfl

/-! ## The budget-limited row renderer (`toHTMLTableRow`, action.ts:197-224) -/

/-- Build the `<tr>...</tr>` string for one row:
`` `<tr>${row.map(formatCellCB).join("")}</tr>` ``. -/
def rowTag (fmt : String → Nat → String) (row : List String) : String :=
  "<tr>" ++ String.join (row.enum.map (fun p => fmt p.2 p.1)) ++ "</tr>"

/-- The JS comparison `charCount <= charLimit` where `charLimit` may be
`Infinity` (modelled as `none`). -/
def withinLimit (n : Nat) : Option Int → Bool
  | none => true
  | some l => decide ((n : Int) ≤ l)

/-- The placeholder row built at the first overflow:
`["truncated..."].concat(Array(Math.max((rows[0] ?? []).length - 1, 0)).fill(""))`.
Natural-number subtraction supplies the `Math.max(..., 0)`. -/
def dummyRow (rows : List (List String)) : List String :=
  "truncated..." :: List.replicate ((rows.headD []).length - 1) ""

/-- The loop body of `toHTMLTableRow`: the source maps over `rows` with a
closure mutating `charCount` and `truncated`; here that state is passed
explicitly.  `dummy` is the rendered placeholder row (computed once from
the original row list, as the source closure captures `rows`). -/
def toHTMLTableRowGo (fmt : String → Nat → String) (dummy : String) (lim : Option Int) :
    List (List String) → Nat → Bool → String
  | [], _, _ => ""
  | r :: rs, count, truncated =>
    let tag := rowTag fmt r
    let count' := count + tag.length
    if withinLimit count' lim then
      tag ++ toHTMLTableRowGo fmt dummy lim rs count' truncated
    else if truncated then
      toHTMLTableRowGo fmt dummy lim rs count' truncated
    else
      dummy ++ toHTMLTableRowGo fmt dummy lim rs count' true

/-- Combined length of the opening and closing wrapper tags; the initial
value of `charCount` in the source. -/
def wrapperCost (w : String) : Nat :=
  ("<" ++ w ++ ">").length + ("</" ++ w ++ ">").length

/-- Embedding of `toHTMLTableRow` (action.ts:197-224). -/
def toHTMLTableRow (rows : List (List String)) (fmt : String → Nat → String)
    (wrapperElement : String) (charLimit : Option Int) : String :=
  let openingTag := "<" ++ wrapperElement ++ ">"
  let closingTag := "</" ++ wrapperElement ++ ">"
  openingTag ++
    toHTMLTableRowGo fmt (rowTag fmt (dummyRow rows)) charLimit rows
      (openingTag.length + closingTag.length) false ++
    closingTag

/-- The header-cell renderer of `toHTMLTable`: `` (cell) => `<th>${cell}</th>` ``. -/
def thFormat (cell : String) (_i : Nat) : String := "<th>" ++ cell ++ "</th>"

/-- The body-cell renderer of `toHTMLTable`:
`` (cell, i) => `<td${i > 0 ? ' nowrap="nowrap" align="right"' : ""}>${cell}</td>` ``. -/
def tdFormat (cell : String) (i : Nat) : String :=
  "<td" ++ (if i > 0 then " nowrap=\"nowrap\" align=\"right\"" else "") ++ ">" ++ cell ++ "</td>"

/-- Embedding of `toHTMLTable` (action.ts:174-195).  The default
`charLimit = Infinity` of the source is `none` here. -/
def toHTMLTable (headers : List String) (rows : List (List String))
    (charLimit : Option Int) : String :=
  let openingTag := "<table width=\"100%\">"
  let closingTag := "</table>"
  let headerHtml := toHTMLTableRow [headers] thFormat "thead" none
  let remainingChars : Option Int :=
    match charLimit with
    | none => none
    | some l => some (l - ((openingTag.length + closingTag.length + headerHtml.length : Nat) : Int))
  let bodyHtml := toHTMLTableRow rows tdFormat "tbody" remainingChars
  openingTag ++ headerHtml ++ bodyHtml ++ closingTag

/-! ## Coverage summaries and the band formatter (action.ts:154-172) -/

/-- One istanbul metric; `pct` is `Option` because the percentage may be
`undefined` when the metric was not measured (the source's `pct!`
non-null assertion is erased at runtime, so `undefined` flows through). -/
structure MetricSummary where
  pct : Option ℚ
deriving DecidableEq

/-- The four-metric istanbul `CoverageSummary` consumed by the core. -/
structure CoverageSummary where
  statements : MetricSummary
  branches : MetricSummary
  functions : MetricSummary
  lines : MetricSummary
deriving DecidableEq

/-- Modelled JS template-literal rendering of a possibly-`undefined`
number: `undefined` prints as the literal string `"undefined"`.  The
digits of a defined value are incidental to every claim; non-integral
values are rendered as a fraction. -/
def numToString : Option ℚ → String
  | none => "undefined"
  | some q => if q.den = 1 then toString q.num else toString q.num ++ "/" ++ toString q.den

/-- JS `number > threshold` where `number` may be `undefined`: any
comparison against `undefined` is `false`. -/
def jsGT : Option ℚ → ℚ → Bool
  | none, _ => false
  | some q, t => decide (t < q)

/-- Embedding of `formatIfPoor` (action.ts:154-165). -/
def formatIfPoor (number : Option ℚ) : String :=
  if jsGT number 80 then numToString number ++ " :green_circle:"
  else if jsGT number 65 then numToString number ++ " :yellow_circle:"
  else if jsGT number 50 then numToString number ++ " :orange_circle:"
  else numToString number ++ " :red_circle:"

/-- Embedding of `summaryToRow` (action.ts:167-172). -/
def summaryToRow (f : CoverageSummary) : List String :=
  [formatIfPoor f.statements.pct, formatIfPoor f.branches.pct,
   formatIfPoor f.functions.pct, formatIfPoor f.lines.pct]

/-! ## Grouping by directory (`groupByPath`, action.ts:226-237) -/

/-- The `File` record built by `parseFile` (action.ts:278-284). -/
structure File where
  relative : String
  fileName : String
  path : String
  coverage : CoverageSummary
deriving DecidableEq

/-- Embedding of `groupByPath` (action.ts:226-237).  The JS accumulator
is a plain object; it is modelled as an association list recording
property creation order: a push to an existing key keeps the key's
position, a new key is appended at the end.  Enumerating the object
(`Object.entries`) does not follow this record for array-index keys —
that reordering is modelled separately by `jsObjectEntries`. -/
def groupByPath (dirs : List (String × List File)) (file : File) : List (String × List File) :=
  if dirs.any (fun p => p.1 == file.path) then
    dirs.map (fun p => if p.1 == file.path then (p.1, p.2 ++ [file]) else p)
  else
    dirs ++ [(file.path, [file])]

/-- Numeric value of a digit-only key. -/
def keyNat (s : String) : Nat :=
  s.data.foldl (fun n c => n * 10 + (c.toNat - 48)) 0

/-- Is the string an ECMAScript array index: a canonical numeric string
(digits only, no leading zero except `"0"` itself) whose value is below
`2^32 - 1`?  Own-property enumeration lists such keys first. -/
def isArrayIndex (s : String) : Bool :=
  !s.data.isEmpty && s.data.all (fun c => c.isDigit)
    && (s == "0" || !(s.data.headD '0' == '0'))
    && decide (keyNat s < 4294967295)

/-- ECMAScript own-property enumeration order as observed through
`Object.entries` and `Object.keys`: array-index keys first in ascending
numeric order, then the remaining string keys in property creation
order. -/
def jsObjectEntries {α : Type} (l : List (String × α)) : List (String × α) :=
  List.insertionSort (fun p q => keyNat p.1 ≤ keyNat q.1)
      (l.filter (fun p => isArrayIndex p.1))
    ++ l.filter (fun p => !(isArrayIndex p.1))

/-! ## Truncation helpers (action.ts:239-257) -/

/-- Embedding of `truncateLeft` (action.ts:239-247). -/
def truncateLeft (str : String) (len : Nat) : String :=
  if len > str.length then str
  else "..." ++ String.mk (str.data.drop (str.length - len))

/-- Embedding of `truncateRight` (action.ts:249-257): keep the first
`len` characters and append `"..."` unless the string is strictly
shorter than `len`. -/
def truncateRight (str : String) (len : Nat) : String :=
  if len > str.length then str
  else String.mk (str.data.take len) ++ "..."

/-! ## The test-results data model -/

/-- One jest assertion result.  `location` holds the reported line
number when a location is present (`assertion.location?.line`). -/
structure AssertionResult where
  status : String
  location : Option Nat
  ancestorTitles : List String
  title : String
  failureMessages : Option (List String)
deriving DecidableEq

/-- One jest suite result (`results.testResults[i]`). -/
structure TestSuiteResult where
  name : String
  assertionResults : List AssertionResult
deriving DecidableEq

/-- The opaque istanbul coverage map, modelled per the spec's external
interface: an iteration-ordered list of (absolute path, per-file
summary) entries plus the overall summary. -/
structure CoverageMapModel where
  entries : List (String × CoverageSummary)
  overall : CoverageSummary
deriving DecidableEq

/-- The fields of jest's `FormattedTestResults` the core reads. -/
structure FormattedTestResults where
  success : Bool
  numPassedTests : Nat
  numPassedTestSuites : Nat
  numFailedTests : Nat
  numTotalTests : Nat
  numTotalTestSuites : Nat
  testResults : List TestSuiteResult
  coverageMap : Option CoverageMapModel
deriving DecidableEq

/-- One check annotation as built by the source (field `level` embeds
the source's `annotation_level`, which is always `"failure"`). -/
structure Annot where
  path : String
  start_line : Nat
  end_line : Nat
  level : String
  title : String
  message : String
deriving DecidableEq

/-- Embedding of `getAnnotations` (action.ts:411-432).  `stripFn` is the
external `strip-ansi` collaborator; lodash `flatMap` and the
`["status", "failed"]` matcher shorthand of lodash `filter` are their
documented list operations. -/
def getAnnots (stripFn : String → String) (results : FormattedTestResults)
    (cwd : String) : List Annot :=
  if results.success then []
  else
    results.testResults.flatMap (fun result =>
      (result.assertionResults.filter (fun a => a.status == "failed")).map (fun assertion =>
        { path := replaceFirst result.name cwd ""
          start_line := assertion.location.getD 0
          end_line := assertion.location.getD 0
          level := "failure"
          title := String.intercalate " > " (assertion.ancestorTitles ++ [assertion.title])
          message := stripFn (match assertion.failureMessages with
            | some msgs => String.intercalate "\n\n" msgs
            | none => "") }))

/-! ## The check payload (action.ts:321-345) -/

/-- The global character budget `CHAR_LIMIT` (action.ts:18). -/
def CHAR_LIMIT : Nat := 60000

/-- The template literal `` `${out ? out : ""}${err ? `\n\n${err}` : ""}` ``
of action.ts:334; `out`/`err` may be absent, and an empty string is
falsy in JS. -/
def combinedStd (out err : Option String) : String :=
  (match out with
    | some s => s
    | none => "")
  ++ (match err with
    | some s => if s == "" then "" else "\n\n" ++ s
    | none => "")

/-- The `output` part of the check payload; the ambient repo/sha/name
fields belong to excluded collaborators. -/
structure CheckOutput where
  title : String
  text : String
  summary : String
  annots : List Annot
deriving DecidableEq

/-- Embedding of `getCheckPayload` (action.ts:321-345), restricted to the
`output` fields the core computes. -/
def getCheckPayload (stripFn : String → String) (results : FormattedTestResults)
    (cwd : String) (std : Option String × Option String) : CheckOutput :=
  { title := if results.success then "Jest tests passed" else "Jest tests failed"
    text := truncateRight (combinedStd std.1 std.2) CHAR_LIMIT
    summary :=
      if results.success then
        toString results.numPassedTests ++ " tests passing in "
          ++ toString results.numPassedTestSuites ++ " suite"
          ++ (if results.numPassedTestSuites > 1 then "s" else "") ++ "."
      else
        "Failed tests: " ++ toString results.numFailedTests ++ "/"
          ++ toString results.numTotalTests ++ ". Failed suites: "
          ++ toString results.numFailedTests ++ "/"
          ++ toString results.numTotalTestSuites ++ "."
    annots := getAnnots stripFn results cwd }

/-! ## The coverage table builder (`getCoverageTable`, action.ts:259-308) -/

/-- The fixed comment header `COVERAGE_HEADER` (action.ts:17). -/
def COVERAGE_HEADER : String := "# :open_umbrella: Code Coverage"

/-- The node `path` operations used by `parseFile`; they are external
collaborators, so they are passed in.  `relativeToRoot` is
`path.relative(rootPath, ·)`. -/
structure PathOps where
  relativeToRoot : String → String
  basename : String → String
  dirname : String → String

/-- Embedding of the `parseFile` closure (action.ts:278-284). -/
def parseFile (ops : PathOps) (entry : String × CoverageSummary) : File :=
  let rel := ops.relativeToRoot entry.1
  { relative := rel, fileName := ops.basename rel, path := ops.dirname rel,
    coverage := entry.2 }

/-- Embedding of `getCoverageTable` (action.ts:259-308).  Both
missing-data branches return the empty string (the source's declared
`string | false` type notwithstanding, both early returns are `""`).
The `Object.entries(files)` enumeration of action.ts:287 is modelled by
`jsObjectEntries`, which realises the ECMAScript own-property order. -/
def getCoverageTable (ops : PathOps) (results : FormattedTestResults) : String :=
  match results.coverageMap with
  | none => ""
  | some cm =>
    if cm.entries.length = 0 then ""
    else
      let headers := ["% Stmts", "% Branch", "% Funcs", "% Lines"]
      let summaryTable := toHTMLTable headers [summaryToRow cm.overall] none
      let fullHeaders := "File" :: headers
      let files := (cm.entries.map (parseFile ops)).foldl groupByPath []
      let rows := ((jsObjectEntries files).map (fun p =>
        (("<b>" ++ truncateLeft p.1 50 ++ "</b>") :: ["", "", "", ""]) ::
          p.2.map (fun f => ("<code>" ++ f.fileName ++ "</code>") :: summaryToRow f.coverage))).flatten
      let fullTable := toHTMLTable fullHeaders rows (some ((CHAR_LIMIT : Nat) : Int))
      String.intercalate "\n" [COVERAGE_HEADER, summaryTable, "", "<details>",
        "<summary>Click to expand</summary>\n", fullTable, "</details>"]

/-- JS truthiness of a string: non-empty is truthy.  The caller guard
`if (comment) { ... }` of action.ts:81. -/
def jsTruthyString (s : String) : Bool := !(s == "")

/-- The orchestrator's decision whether a coverage comment is posted
(the guard at action.ts:81). -/
def coverageCommentWouldPost (ops : PathOps) (results : FormattedTestResults) : Bool :=
  jsTruthyString (getCoverageTable ops results)

/-! ## Analysis of the budget-limited renderer -/

/-- Concatenation of the rendered `<tr>` tags of a row list, in order. -/
def concatRows (fmt : String → Nat → String) : List (List String) → String
  | [] => ""
  | r :: rs => rowTag fmt r ++ concatRows fmt rs

/-- Does every cumulative character count, starting from `c`, stay
within the finite limit `l`? -/
def allFit (fmt : String → Nat → String) (l : Int) : List (List String) → Nat → Bool
  | [], _ => true
  | r :: rs, c =>
    withinLimit (c + (rowTag fmt r).length) (some l) && allFit fmt l rs (c + (rowTag fmt r).length)

/-- The maximal prefix of rows whose cumulative character count,
starting from `c`, stays within the finite limit `l`: exactly the data
rows the renderer keeps. -/
def takeFits (fmt : String → Nat → String) (l : Int) : List (List String) → Nat → List (List String)
  | [], _ => []
  | r :: rs, c =>
    if withinLimit (c + (rowTag fmt r).length) (some l) then
      r :: takeFits fmt l rs (c + (rowTag fmt r).length)
    else []

/-- The rows the renderer emits, as cell rows: every row when they all
fit, otherwise the kept prefix followed by the single placeholder row. -/
def emittedRows (fmt : String → Nat → String) (w : String) (l : Int)
    (rows : List (List String)) : List (List String) :=
  if allFit fmt l rows (wrapperCost w) then rows
  else takeFits fmt l rows (wrapperCost w) ++ [dummyRow rows]

theorem go_none (fmt : String → Nat → String) (d : String) (rs : List (List String)) :
    ∀ (c : Nat) (b : Bool), toHTMLTableRowGo fmt d none rs c b = concatRows fmt rs := by
  induction rs with
  | nil => intro c b; rfl
  | cons r rs ih =>
    intro c b
    simp [toHTMLTableRowGo, withinLimit, concatRows, ih]

theorem go_gt (fmt : String → Nat → String) (d : String) (l : Int) (rs : List (List String)) :
    ∀ (c : Nat), l < (c : Int) → toHTMLTableRowGo fmt d (some l) rs c true = "" := by
  induction rs with
  | nil => intro c _; rfl
  | cons r rs ih =>
    intro c h
    have h2 : l < ((c + (rowTag fmt r).length : Nat) : Int) := by push_cast at h ⊢; omega
    have hb : withinLimit (c + (rowTag fmt r).length) (some l) = false := by
      simp [withinLimit]; omega
    simp [toHTMLTableRowGo, hb, ih _ h2]

theorem go_allFit (fmt : String → Nat → String) (d : String) (l : Int) (rs : List (List String)) :
    ∀ (c : Nat) (b : Bool), allFit fmt l rs c = true →
      toHTMLTableRowGo fmt d (some l) rs c b = concatRows fmt rs := by
  induction rs with
  | nil => intro c b _; rfl
  | cons r rs ih =>
    intro c b h
    rw [allFit, Bool.and_eq_true] at h
    simp [toHTMLTableRowGo, h.1, concatRows, ih _ _ h.2]

theorem go_notFit (fmt : String → Nat → String) (d : String) (l : Int) (rs : List (List String)) :
    ∀ (c : Nat), allFit fmt l rs c = false →
      toHTMLTableRowGo fmt d (some l) rs c false =
        concatRows fmt (takeFits fmt l rs c) ++ d := by
  induction rs with
  | nil => intro c h; simp [allFit] at h
  | cons r rs ih =>
    intro c h
    rw [allFit] at h
    by_cases hw : withinLimit (c + (rowTag fmt r).length) (some l) = true
    · have h2 : allFit fmt l rs (c + (rowTag fmt r).length) = false := by
        rw [hw] at h; simpa using h
      simp [toHTMLTableRowGo, hw, takeFits, concatRows, ih _ h2, String.append_assoc]
    · have hw' : withinLimit (c + (rowTag fmt r).length) (some l) = false :=
        eq_false_of_ne_true hw
      have hgt : l < ((c + (rowTag fmt r).length : Nat) : Int) := by
        simp [withinLimit] at hw'; exact_mod_cast hw'
      simp [toHTMLTableRowGo, hw', takeFits, concatRows, go_gt fmt d l rs _ hgt]

theorem allFit_le (fmt : String → Nat → String) (l : Int) (rs : List (List String)) :
    ∀ (c : Nat), allFit fmt l rs c = true → (c : Int) ≤ l →
      ((c + (concatRows fmt rs).length : Nat) : Int) ≤ l := by
  induction rs with
  | nil => intro c _ h2; simpa [concatRows] using h2
  | cons r rs ih =>
    intro c h h2
    rw [allFit, Bool.and_eq_true] at h
    have h1 : ((c + (rowTag fmt r).length : Nat) : Int) ≤ l := by
      have := h.1; simp [withinLimit] at this; exact_mod_cast this
    have h3 := ih _ h.2 h1
    rw [concatRows, String.length_append] at *
    push_cast at h3 ⊢
    omega

theorem takeFits_le (fmt : String → Nat → String) (l : Int) (rs : List (List String)) :
    ∀ (c : Nat), (c : Int) ≤ l →
      ((c + (concatRows fmt (takeFits fmt l rs c)).length : Nat) : Int) ≤ l := by
  induction rs with
  | nil => intro c h; simpa [takeFits, concatRows] using h
  | cons r rs ih =>
    intro c h
    by_cases hw : withinLimit (c + (rowTag fmt r).length) (some l) = true
    · have h1 : ((c + (rowTag fmt r).length : Nat) : Int) ≤ l := by
        simp [withinLimit] at hw; exact_mod_cast hw
      have h3 := ih _ h1
      rw [takeFits, if_pos hw, concatRows, String.length_append]
      push_cast at h3 ⊢
      omega
    · rw [takeFits, if_neg hw, concatRows]
      simpa using h

theorem allFit_takeFits (fmt : String → Nat → String) (l : Int) (rs : List (List String)) :
    ∀ (c : Nat), allFit fmt l (takeFits fmt l rs c) c = true := by
  induction rs with
  | nil => intro c; rfl
  | cons r rs ih =>
    intro c
    by_cases hw : withinLimit (c + (rowTag fmt r).length) (some l) = true
    · rw [takeFits, if_pos hw, allFit, hw, ih]
      rfl
    · rw [takeFits, if_neg hw]
      rfl

theorem go_append_allFit (fmt : String → Nat → String) (d : String) (l : Int)
    (k : List (List String)) :
    ∀ (rest : List (List String)) (c : Nat) (b : Bool), allFit fmt l k c = true →
      toHTMLTableRowGo fmt d (some l) (k ++ rest) c b =
        concatRows fmt k ++
          toHTMLTableRowGo fmt d (some l) rest (c + (concatRows fmt k).length) b := by
  induction k with
  | nil => intro rest c b _; simp [concatRows]
  | cons r k ih =>
    intro rest c b h
    rw [allFit, Bool.and_eq_true] at h
    rw [List.cons_append, toHTMLTableRowGo]
    simp only [h.1, if_true]
    rw [ih _ _ _ h.2, concatRows, String.length_append, String.append_assoc]
    ring_nf

theorem toHTMLTableRow_allFit (fmt : String → Nat → String) (w : String)
    (rows : List (List String)) (l : Int) (h : allFit fmt l rows (wrapperCost w) = true) :
    toHTMLTableRow rows fmt w (some l) =
      ("<" ++ w ++ ">") ++ concatRows fmt rows ++ ("</" ++ w ++ ">") := by
  rw [toHTMLTableRow]
  rw [show ("<" ++ w ++ ">").length + ("</" ++ w ++ ">").length = wrapperCost w from rfl]
  rw [go_allFit fmt _ l rows (wrapperCost w) false h]

theorem toHTMLTableRow_notFit (fmt : String → Nat → String) (w : String)
    (rows : List (List String)) (l : Int) (h : allFit fmt l rows (wrapperCost w) = false) :
    toHTMLTableRow rows fmt w (some l) =
      ("<" ++ w ++ ">") ++ concatRows fmt (takeFits fmt l rows (wrapperCost w))
        ++ rowTag fmt (dummyRow rows) ++ ("</" ++ w ++ ">") := by
  rw [toHTMLTableRow]
  rw [show ("<" ++ w ++ ">").length + ("</" ++ w ++ ">").length = wrapperCost w from rfl]
  rw [go_notFit fmt _ l rows (wrapperCost w) h]
  simp [String.append_assoc]

theorem dummyRow_emitted (fmt : String → Nat → String) (w : String) (l : Int)
    (rows : List (List String)) (h : allFit fmt l rows (wrapperCost w) = false) :
    dummyRow (takeFits fmt l rows (wrapperCost w) ++ [dummyRow rows]) = dummyRow rows := by
  cases rows with
  | nil => simp [allFit] at h
  | cons r rs =>
    by_cases hw : withinLimit (wrapperCost w + (rowTag fmt r).length) (some l) = true
    · rw [takeFits, if_pos hw]
      rfl
    · rw [takeFits, if_neg hw]
      simp [dummyRow]

theorem go_single_dummy (fmt : String → Nat → String) (l : Int) (d0 : List String) (c : Nat) :
    toHTMLTableRowGo fmt (rowTag fmt d0) (some l) [d0] c false = rowTag fmt d0 := by
  rw [toHTMLTableRowGo]
  by_cases hw : withinLimit (c + (rowTag fmt d0).length) (some l) = true
  · simp [hw, toHTMLTableRowGo]
  · simp [eq_false_of_ne_true hw, toHTMLTableRowGo]

/-- C1 (counterexample): with the body cell renderer, rows `[["a"],["b"]]`,
wrapper `tbody` (cost 15) and limit 34, the first row fits exactly, the
second triggers the placeholder, and the output has 64 characters: more
than the limit, and not equal to wrapper cost plus placeholder length
either.  The claimed disjunction fails. -/
theorem c1_counterexample :
    ((wrapperCost "tbody" : Int) ≤ 34)
    ∧ (toHTMLTableRow [["a"], ["b"]] tdFormat "tbody" (some 34)).length = 64
    ∧ ¬ (((toHTMLTableRow [["a"], ["b"]] tdFormat "tbody" (some 34)).length : Int) ≤ 34
          ∨ (toHTMLTableRow [["a"], ["b"]] tdFormat "tbody" (some 34)).length
              = wrapperCost "tbody" + (rowTag tdFormat (dummyRow [["a"], ["b"]])).length) := by
  refine ⟨by decide, by decide, ?_⟩
  decide

/-- C1 (amended): for every limit `l` at least the wrapper cost, the
rendered string has length at most `l` plus the rendered placeholder
row's length; when every row fits, the length is at most `l` itself.
The output exceeds `l` only by the unchecked placeholder row appended at
the first overflow. -/
theorem c1_render_size_bound (fmt : String → Nat → String) (w : String)
    (rows : List (List String)) (l : Int) (h : (wrapperCost w : Int) ≤ l) :
    ((toHTMLTableRow rows fmt w (some l)).length : Int)
        ≤ l + ((rowTag fmt (dummyRow rows)).length : Int)
    ∧ (allFit fmt l rows (wrapperCost w) = true →
        ((toHTMLTableRow rows fmt w (some l)).length : Int) ≤ l) := by
  by_cases hf : allFit fmt l rows (wrapperCost w) = true
  · have hle := allFit_le fmt l rows (wrapperCost w) hf h
    rw [toHTMLTableRow_allFit fmt w rows l hf]
    have hwc : wrapperCost w = ("<" ++ w ++ ">").length + ("</" ++ w ++ ">").length := rfl
    rw [hwc] at hle
    simp only [String.length_append] at hle ⊢
    push_cast at hle ⊢
    exact ⟨by omega, fun _ => by omega⟩
  · have hf' := eq_false_of_ne_true hf
    have hk := takeFits_le fmt l rows (wrapperCost w) h
    refine ⟨?_, fun hcon => absurd hcon (by simp [hf'])⟩
    rw [toHTMLTableRow_notFit fmt w rows l hf']
    have hwc : wrapperCost w = ("<" ++ w ++ ">").length + ("</" ++ w ++ ">").length := rfl
    rw [hwc] at hk ⊢
    simp only [String.length_append] at hk ⊢
    push_cast at hk ⊢
    omega

/-- C1 (amended, witness): the bound evaluated at the counterexample
input. -/
theorem c1_render_size_bound_witness :
    ((wrapperCost "tbody" : Int) ≤ 34)
    ∧ (((toHTMLTableRow [["a"], ["b"]] tdFormat "tbody" (some 34)).length : Int)
          ≤ 34 + ((rowTag tdFormat (dummyRow [["a"], ["b"]])).length : Int)
        ∧ (allFit tdFormat 34 [["a"], ["b"]] (wrapperCost "tbody") = true →
            ((toHTMLTableRow [["a"], ["b"]] tdFormat "tbody" (some 34)).length : Int) ≤ 34)) :=
  ⟨by decide, c1_render_size_bound tdFormat "tbody" [["a"], ["b"]] 34 (by decide)⟩

/-- C2 (counterexample): when the first input row is empty and already
overflows the limit, the emitted placeholder row has one cell
(`"truncated..."` alone) while the first input row has zero cells, so
the placeholder does not have the same total column count as the first
input row. -/
theorem c2_counterexample :
    allFit tdFormat 15 [[]] (wrapperCost "tbody") = false
    ∧ toHTMLTableRow [[]] tdFormat "tbody" (some 15)
        = "<tbody><tr><td>truncated...</td></tr></tbody>"
    ∧ (dummyRow [[]]).length ≠ (([] : List String)).length := by
  refine ⟨by decide, by decide, by decide⟩

/-- C2 (amended): on the first row that would push the running count
(started at the wrapper cost) over the limit, the output is exactly the
kept prefix of rendered rows followed by one placeholder row and the
closing tag — no later input row and no second placeholder appear.  The
placeholder's first cell is the literal `"truncated..."`, its remaining
cells are empty, and its column count is
`max(firstRowColumns - 1, 0) + 1`, which equals the first input row's
column count whenever that row is nonempty.  If the very first row
already overflows, the output holds only the placeholder. -/
theorem c2_truncation_shape (fmt : String → Nat → String) (w : String)
    (rows : List (List String)) (l : Int)
    (h : allFit fmt l rows (wrapperCost w) = false) :
    toHTMLTableRow rows fmt w (some l)
        = ("<" ++ w ++ ">") ++ concatRows fmt (takeFits fmt l rows (wrapperCost w))
            ++ rowTag fmt (dummyRow rows) ++ ("</" ++ w ++ ">")
    ∧ (dummyRow rows).head? = some "truncated..."
    ∧ (dummyRow rows).tail.all (fun c => c == "")
    ∧ (dummyRow rows).length = max ((rows.headD []).length - 1) 0 + 1
    ∧ ((rows.headD []) ≠ [] → (dummyRow rows).length = (rows.headD []).length)
    ∧ (takeFits fmt l rows (wrapperCost w) = [] →
        toHTMLTableRow rows fmt w (some l)
          = ("<" ++ w ++ ">") ++ rowTag fmt (dummyRow rows) ++ ("</" ++ w ++ ">")) := by
  refine ⟨toHTMLTableRow_notFit fmt w rows l h, rfl, ?_, ?_, ?_, ?_⟩
  · simp only [dummyRow, List.tail_cons, List.all_eq_true]
    intro x hx
    rw [List.eq_of_mem_replicate hx]
    rfl
  · simp only [dummyRow, List.length_cons, List.length_replicate]
    omega
  · intro hne
    have hlen : (rows.headD []).length ≠ 0 := by
      simpa [List.length_eq_zero] using hne
    simp only [dummyRow, List.length_cons, List.length_replicate]
    omega
  · intro hk
    rw [toHTMLTableRow_notFit fmt w rows l h, hk]
    simp [concatRows, String.append_assoc]

/-- C2 (amended, witness): the truncation shape evaluated at a concrete
overflowing input. -/
theorem c2_truncation_shape_witness :
    allFit tdFormat 34 [["a"], ["b"]] (wrapperCost "tbody") = false
    ∧ toHTMLTableRow [["a"], ["b"]] tdFormat "tbody" (some 34)
        = ("<" ++ "tbody" ++ ">")
            ++ concatRows tdFormat (takeFits tdFormat 34 [["a"], ["b"]] (wrapperCost "tbody"))
            ++ rowTag tdFormat (dummyRow [["a"], ["b"]]) ++ ("</" ++ "tbody" ++ ">") :=
  ⟨by decide, (c2_truncation_shape tdFormat "tbody" [["a"], ["b"]] 34 (by decide)).1⟩

/-- C3 (confirmed): when the limit is unbounded, or every cumulative
rendered size starting from the wrapper cost stays within the finite
limit, the renderer returns exactly the rendered input rows in order
between the wrapper tags — every row verbatim, no placeholder. -/
theorem c3_all_rows_when_within_budget (fmt : String → Nat → String) (w : String)
    (rows : List (List String)) (lim : Option Int)
    (h : lim = none ∨ ∃ l : Int, lim = some l ∧ allFit fmt l rows (wrapperCost w) = true) :
    toHTMLTableRow rows fmt w lim
      = ("<" ++ w ++ ">") ++ concatRows fmt rows ++ ("</" ++ w ++ ">") := by
  rcases h with h | ⟨l, hl, hfit⟩
  · subst h
    rw [toHTMLTableRow, go_none]
  · subst hl
    exact toHTMLTableRow_allFit fmt w rows l hfit

/-- C3 (witness): a concrete row list that fits within a limit of 100. -/
theorem c3_all_rows_when_within_budget_witness :
    allFit tdFormat 100 [["a"]] (wrapperCost "tbody") = true
    ∧ toHTMLTableRow [["a"]] tdFormat "tbody" (some 100)
        = ("<" ++ "tbody" ++ ">") ++ concatRows tdFormat [["a"]] ++ ("</" ++ "tbody" ++ ">") :=
  ⟨by decide, c3_all_rows_when_within_budget tdFormat "tbody" [["a"]] (some 100)
      (Or.inr ⟨100, rfl, by decide⟩)⟩

/-- C4 (confirmed): truncation is idempotent.  Re-rendering the row
sequence the renderer emitted (all rows when everything fits, otherwise
the kept data rows followed by the single placeholder row) under the
same finite limit and cell renderer reproduces the output string
exactly; no second placeholder is introduced. -/
theorem c4_truncation_idempotent (fmt : String → Nat → String) (w : String) (l : Int)
    (rows : List (List String)) :
    toHTMLTableRow (emittedRows fmt w l rows) fmt w (some l)
      = toHTMLTableRow rows fmt w (some l) := by
  by_cases hf : allFit fmt l rows (wrapperCost w) = true
  · rw [emittedRows, if_pos hf]
  · have hf' := eq_false_of_ne_true hf
    rw [emittedRows, if_neg hf]
    rw [toHTMLTableRow]
    rw [show ("<" ++ w ++ ">").length + ("</" ++ w ++ ">").length = wrapperCost w from rfl]
    rw [dummyRow_emitted fmt w l rows hf']
    rw [go_append_allFit fmt (rowTag fmt (dummyRow rows)) l
      (takeFits fmt l rows (wrapperCost w)) [dummyRow rows] (wrapperCost w) false
      (allFit_takeFits fmt l rows (wrapperCost w))]
    rw [go_single_dummy]
    rw [toHTMLTableRow_notFit fmt w rows l hf']
    simp [String.append_assoc]

/-! ## Claim C5: annotation extraction -/

/-- Helper: mapping a function over a filtered list equals one
`filterMap` pass. -/
theorem mapFilter_eq_filterMap {α β : Type} (p : α → Bool) (g : α → β) (l : List α) :
    (l.filter p).map g = l.filterMap (fun a => if p a then some (g a) else none) := by
  induction l with
  | nil => rfl
  | cons x xs ih =>
    by_cases hp : p x
    · simp [List.filter_cons, hp, List.filterMap_cons, ih]
    · simp [List.filter_cons, hp, List.filterMap_cons, ih]

/-- Modelled from the spec (§4.4), one emitted annotation, with the
amended path clause: path = suite file name with the first occurrence of
the working root removed. -/
def specAnnot (stripFn : String → String) (cwd : String) (suiteName : String)
    (a : AssertionResult) : Annot :=
  { path := replaceFirst suiteName cwd ""
    start_line := a.location.getD 0
    end_line := a.location.getD 0
    level := "failure"
    title := String.intercalate " > " (a.ancestorTitles ++ [a.title])
    message := stripFn (match a.failureMessages with
      | some msgs => String.intercalate "\n\n" msgs
      | none => "") }

/-- Modelled from the spec (§4.4): a successful run yields no
annotations; otherwise, for every suite result, for every assertion
whose status is `"failed"` (other statuses excluded), one annotation is
emitted, in suite order then assertion order. -/
def specExtract (stripFn : String → String) (results : FormattedTestResults)
    (cwd : String) : List Annot :=
  if results.success then []
  else
    results.testResults.foldr (fun r acc =>
      r.assertionResults.filterMap (fun a =>
        if a.status == "failed" then some (specAnnot stripFn cwd r.name a) else none)
        ++ acc) []

/-- When the root leads the name, removing its first occurrence is
exactly stripping the prefix. -/
theorem replaceFirst_drop_of_leadsWith (pat s : String)
    (h : leadsWith pat.data s.data = true) :
    replaceFirst s pat "" = String.mk (s.data.drop pat.data.length) := by
  rw [replaceFirst]
  cases hs : s.data with
  | nil =>
    cases hp : pat.data with
    | nil => rfl
    | cons c cs =>
      rw [hs, hp] at h
      simp [leadsWith] at h
  | cons c cs =>
    rw [hs] at h
    rw [replaceFirstAux, if_pos h]
    rfl

/-- The concrete failing-run results used to refute the C5 path clause:
one suite whose file name contains the working root `"/w/"` in the
middle rather than as a prefix. -/
def c5CxResults : FormattedTestResults :=
  { success := false
    numPassedTests := 0
    numPassedTestSuites := 0
    numFailedTests := 1
    numTotalTests := 1
    numTotalTestSuites := 1
    testResults := [{ name := "a/w/b"
                      assertionResults := [{ status := "failed", location := some 3,
                                             ancestorTitles := [], title := "t",
                                             failureMessages := none }] }]
    coverageMap := none }

/-- Spec-worded prefix stripping: remove the working root when it is a
prefix of the name, otherwise leave the name unchanged. -/
def stripRootSpec (root s : String) : String :=
  if leadsWith root.data s.data then String.mk (s.data.drop root.data.length) else s

/-- C5 (counterexample): with working root `"/w/"` and suite name
`"a/w/b"`, the code removes the mid-string occurrence and produces path
`"ab"`, while stripping the working-root prefix would leave `"a/w/b"`
unchanged; the claim's path clause fails. -/
theorem c5_counterexample :
    (getAnnots (fun s => s) c5CxResults "/w/").map Annot.path = ["ab"]
    ∧ stripRootSpec "/w/" "a/w/b" = "a/w/b"
    ∧ (getAnnots (fun s => s) c5CxResults "/w/").map Annot.path
        ≠ c5CxResults.testResults.map (fun r => stripRootSpec "/w/" r.name) := by
  refine ⟨by decide, by decide, by decide⟩

/-- C5 (amended): the extractor returns the empty sequence on a
successful run and, on a failing run, exactly one annotation per
assertion with status `"failed"` (zero for other statuses), in suite
order then assertion order, with level `"failure"`, line defaulting to
0, title the ancestor chain plus own title joined by `" > "`, message
the failure messages joined by a double newline and stripped, and path
the suite name with the first occurrence of the working root removed —
which coincides with stripping the working-root prefix whenever the
root leads the name. -/
theorem c5_annotation_extraction (stripFn : String → String)
    (results : FormattedTestResults) (cwd : String) :
    getAnnots stripFn results cwd = specExtract stripFn results cwd
    ∧ ∀ name : String, leadsWith cwd.data name.data = true →
        replaceFirst name cwd "" = String.mk (name.data.drop cwd.data.length) := by
  refine ⟨?_, fun name h => replaceFirst_drop_of_leadsWith cwd name h⟩
  rw [getAnnots, specExtract]
  cases hs : results.success
  · simp only [Bool.false_eq_true, if_neg, ite_false]
    induction results.testResults with
    | nil => rfl
    | cons r rs ih =>
      rw [List.flatMap_cons, List.foldr_cons, ih]
      rw [mapFilter_eq_filterMap]
      rfl
  · simp

/-- C5 (amended, witness): the refinement and the prefix coincidence
evaluated at concrete inputs. -/
theorem c5_annotation_extraction_witness :
    getAnnots (fun s => s) c5CxResults "/w/" = specExtract (fun s => s) c5CxResults "/w/"
    ∧ (leadsWith ("/w/" : String).data ("/w/x" : String).data = true
        ∧ replaceFirst "/w/x" "/w/" ""
            = String.mk (("/w/x" : String).data.drop ("/w/" : String).data.length)) :=
  ⟨(c5_annotation_extraction (fun s => s) c5CxResults "/w/").1,
   by decide,
   (c5_annotation_extraction (fun s => s) c5CxResults "/w/").2 "/w/x" (by decide)⟩

/-! ## Claim C6: the check summary text -/

/-- Modelled from the spec (§4.5): the success summary with its plural
`"s"` exactly when more than one suite passed, and the failure summary
whose failed-suite numerator is the failed-test count, as the source
computes it. -/
def specSummaryText (results : FormattedTestResults) : String :=
  if results.success then
    toString results.numPassedTests ++ " tests passing in "
      ++ toString results.numPassedTestSuites ++ " suite"
      ++ (if results.numPassedTestSuites > 1 then "s" else "") ++ "."
  else
    "Failed tests: " ++ toString results.numFailedTests ++ "/"
      ++ toString results.numTotalTests ++ ". Failed suites: "
      ++ toString results.numFailedTests ++ "/"
      ++ toString results.numTotalTestSuites ++ "."

/-- C6 (confirmed): the check payload's summary is exactly the
spec-worded template, for every results structure. -/
theorem c6_check_summary (stripFn : String → String) (results : FormattedTestResults)
    (cwd : String) (std : Option String × Option String) :
    (getCheckPayload stripFn results cwd std).summary = specSummaryText results := rfl

/-! ## Claim C7: the check body text -/

/-- C7 (counterexample): a captured stdout of exactly 60000 characters.
The body text becomes the first 60000 characters plus the `"..."`
marker: 60003 characters, exceeding the global limit. -/
def longA : String := String.mk (List.replicate CHAR_LIMIT 'a')

/-- A minimal successful results structure. -/
def resultsOk : FormattedTestResults :=
  { success := true
    numPassedTests := 0
    numPassedTestSuites := 0
    numFailedTests := 0
    numTotalTests := 0
    numTotalTestSuites := 0
    testResults := []
    coverageMap := none }

theorem c7_counterexample :
    (getCheckPayload (fun s => s) resultsOk "" (some longA, none)).text.length
        = CHAR_LIMIT + 3
    ∧ ¬ ((getCheckPayload (fun s => s) resultsOk "" (some longA, none)).text.length
          ≤ CHAR_LIMIT) := by
  have h1 : longA.length = CHAR_LIMIT := by
    rw [show longA = String.mk (List.replicate CHAR_LIMIT 'a') from rfl]
    rw [show (String.mk (List.replicate CHAR_LIMIT 'a')).length
        = (List.replicate CHAR_LIMIT 'a').length from rfl]
    rw [List.length_replicate]
  have hlen : (combinedStd (some longA) none).length = CHAR_LIMIT := by
    rw [show combinedStd (some longA) none = longA ++ "" from rfl]
    rw [String.length_append, h1]
    rw [show ("" : String).length = 0 from rfl]
    omega
  have htext : (getCheckPayload (fun s => s) resultsOk "" (some longA, none)).text
      = truncateRight (combinedStd (some longA) none) CHAR_LIMIT := by
    simp only [getCheckPayload]
  have hnot : ¬ (CHAR_LIMIT > (combinedStd (some longA) none).length) := by omega
  have hdata : ((combinedStd (some longA) none).data).length = CHAR_LIMIT := hlen
  have : (truncateRight (combinedStd (some longA) none) CHAR_LIMIT).length
      = CHAR_LIMIT + 3 := by
    rw [truncateRight, if_neg hnot, String.length_append]
    rw [strLength_mk, List.length_take, hdata, length_dots]
    omega
  rw [htext, this]
  omega

/-- C7 (amended): the body text is the concatenation of captured stdout
and, when stderr is non-empty, a blank line followed by stderr,
right-truncated by `truncateRight` at the 60000-character global limit:
it is returned unchanged when strictly shorter than the limit, and
otherwise cut to its first 60000 characters with the `"..."` marker
appended, so the body never exceeds 60003 characters (the limit plus
the three-character marker). -/
theorem c7_body_text (stripFn : String → String) (results : FormattedTestResults)
    (cwd : String) (out err : Option String) :
    (getCheckPayload stripFn results cwd (out, err)).text
        = truncateRight (combinedStd out err) CHAR_LIMIT
    ∧ (getCheckPayload stripFn results cwd (out, err)).text.length ≤ CHAR_LIMIT + 3
    ∧ ((combinedStd out err).length < CHAR_LIMIT →
        (getCheckPayload stripFn results cwd (out, err)).text = combinedStd out err)
    ∧ (CHAR_LIMIT ≤ (combinedStd out err).length →
        (getCheckPayload stripFn results cwd (out, err)).text
          = String.mk ((combinedStd out err).data.take CHAR_LIMIT) ++ "...") := by
  refine ⟨rfl, ?_, ?_, ?_⟩
  · show (truncateRight (combinedStd out err) CHAR_LIMIT).length ≤ CHAR_LIMIT + 3
    rw [truncateRight]
    by_cases hlt : CHAR_LIMIT > (combinedStd out err).length
    · rw [if_pos hlt]
      omega
    · rw [if_neg hlt, String.length_append]
      have : ((combinedStd out err).data.take CHAR_LIMIT).length
          = min CHAR_LIMIT ((combinedStd out err).data).length := List.length_take _ _
      show ((combinedStd out err).data.take CHAR_LIMIT).length + 3 ≤ CHAR_LIMIT + 3
      omega
  · intro h
    show truncateRight (combinedStd out err) CHAR_LIMIT = combinedStd out err
    rw [truncateRight, if_pos h]
  · intro h
    have hnot : ¬ (CHAR_LIMIT > (combinedStd out err).length) := by omega
    show truncateRight (combinedStd out err) CHAR_LIMIT
        = String.mk ((combinedStd out err).data.take CHAR_LIMIT) ++ "..."
    rw [truncateRight, if_neg hnot]

/-- C7 (amended, witness): the short-input branch evaluated at a
concrete two-character stdout. -/
theorem c7_body_text_witness :
    (combinedStd (some "hi") none).length < CHAR_LIMIT
    ∧ (getCheckPayload (fun s => s) resultsOk "" (some "hi", none)).text
        = combinedStd (some "hi") none :=
  ⟨by decide,
   (c7_body_text (fun s => s) resultsOk "" (some "hi") none).2.2.1 (by decide)⟩

/-! ## Claim C8: missing coverage data is not an error -/

/-- Concrete identity path operations for witnesses. -/
def trivialPathOps : PathOps :=
  { relativeToRoot := fun s => s, basename := fun s => s, dirname := fun s => s }

/-- C8 (confirmed): when the coverage map is absent or has zero file
entries, the coverage table builder returns the empty-report signal
(the empty string, falsy in JS) — it is a total computation, not an
error path — and the orchestrator's guard then skips posting a coverage
comment. -/
theorem c8_missing_coverage_not_error (ops : PathOps) (results : FormattedTestResults)
    (h : results.coverageMap = none
        ∨ ∃ cm : CoverageMapModel, results.coverageMap = some cm ∧ cm.entries = []) :
    getCoverageTable ops results = ""
    ∧ coverageCommentWouldPost ops results = false := by
  have ht : getCoverageTable ops results = "" := by
    rcases h with h | ⟨cm, h, he⟩
    · unfold getCoverageTable
      rw [h]
    · obtain ⟨succ, n1, n2, n3, n4, n5, tr, cov⟩ := results
      have h' : cov = some cm := h
      subst h'
      simp [getCoverageTable, he]
  exact ⟨ht, by rw [coverageCommentWouldPost, ht]; rfl⟩

/-- C8 (witness): a results structure with no coverage map. -/
theorem c8_missing_coverage_not_error_witness :
    resultsOk.coverageMap = none
    ∧ (getCoverageTable trivialPathOps resultsOk = ""
        ∧ coverageCommentWouldPost trivialPathOps resultsOk = false) :=
  ⟨rfl, c8_missing_coverage_not_error trivialPathOps resultsOk (Or.inl rfl)⟩

/-! ## Claim C9: grouping order under the JS enumeration -/

instance keyLeTotal : IsTotal (String × List File) (fun p q => keyNat p.1 ≤ keyNat q.1) :=
  ⟨fun a b => Nat.le_total (keyNat a.1) (keyNat b.1)⟩

instance keyLeTrans : IsTrans (String × List File) (fun p q => keyNat p.1 ≤ keyNat q.1) :=
  ⟨fun _ _ _ => Nat.le_trans⟩

/-- C10 (confirmed): an undefined percentage fails all three threshold
comparisons, so the band formatter falls through to the red band and
prints the literal `"undefined :red_circle:"`; the undefined value is
not coerced to 0 (which would print `"0 :red_circle:"`) and no error is
raised — the formatter is total.  A summary with all four metrics
undefined yields four red cells. -/
theorem c10_undefined_pct_red_band :
    jsGT none 80 = false ∧ jsGT none 65 = false ∧ jsGT none 50 = false
    ∧ formatIfPoor none = "undefined :red_circle:"
    ∧ formatIfPoor none ≠ formatIfPoor (some 0)
    ∧ summaryToRow { statements := ⟨none⟩, branches := ⟨none⟩,
                     functions := ⟨none⟩, lines := ⟨none⟩ }
        = ["undefined :red_circle:", "undefined :red_circle:",
           "undefined :red_circle:", "undefined :red_circle:"] := by
  refine ⟨rfl, rfl, rfl, by decide, by decide, by decide⟩
